import Mathlib

/-!
Verification development for `catharsys/plugins/std/blender/modify/func/object_util.py`.

The file shallowly embeds the modifier functions of that module.  Python
runtime values are modelled by `PyVal`; Blender objects are modelled by small
structures holding exactly the fields the modifiers touch.  External host
calls (bpy, anyblend, anycam, anybase) are modelled by explicit state or by
oracle records, as documented at each definition.  Fallible Python code is
modelled with `Except`/`Option`; a raised exception is an `.error`/`some`
message carrying the exact message text built by the source (apostrophes in
message literals are written with the `\x27` escape).
-/

namespace ObjectUtil

/-- Python runtime values, as far as the modifiers inspect them.  `float`
carries an opaque payload (only the type tag is ever inspected by the source).
`ref` is a reference into an attribute heap (see `Heap`).  `paramField`
models the field-specification object that the `@paramclass` decorator stores
on a parameter class: accessing a parameter on the class itself (instead of on
an instance) yields such a value. -/
inductive PyVal where
  | none : PyVal
  | bool : Bool → PyVal
  | int : Int → PyVal
  | float : Int → PyVal
  | str : String → PyVal
  | list : List PyVal → PyVal
  | ref : Nat → PyVal
  | paramField : String → PyVal
deriving Repr

/-- Python `isinstance(v, int)`.  In Python `bool` is a subclass of `int`,
so booleans pass this test. -/
def PyVal.isInstInt : PyVal → Bool
  | .int _ => true
  | .bool _ => true
  | _ => false

/-- Python `isinstance(v, float)`. -/
def PyVal.isInstFloat : PyVal → Bool
  | .float _ => true
  | _ => false

/-- Python `isinstance(v, str)`. -/
def PyVal.isInstStr : PyVal → Bool
  | .str _ => true
  | _ => false

/-- Modelled from the spec: `anybase.convert.ToTypename` returns the name of
the Python type of a value (the module only interpolates this name into an
error message). -/
def convertToTypename : PyVal → String
  | .none => "NoneType"
  | .bool _ => "bool"
  | .int _ => "int"
  | .float _ => "float"
  | .str _ => "str"
  | .list _ => "list"
  | .ref _ => "object"
  | .paramField _ => "CParamFields"

/-- Python `str(v)`, as far as error messages render values.  The rendering
of compound values is a model detail; the claims only depend on the message
naming the key and the object. -/
def pyStr : PyVal → String
  | .none => "None"
  | .bool b => if b then "True" else "False"
  | .int i => toString i
  | .float _ => "<float>"
  | .str s => s
  | .list _ => "<list>"
  | .ref r => "<object " ++ toString r ++ ">"
  | .paramField f => "<CParamFields " ++ f ++ ">"

/-- Single quote character, written via the hex escape. -/
def sq : String := "\x27"

/-- Update of an association list at a key: replaces the first binding of the
key, appends the binding if the key is absent (Python dict/IDProperty
assignment semantics for an existing container). -/
def setEntry {α β : Type} [DecidableEq α] : List (α × β) → α → β → List (α × β)
  | [], k, v => [(k, v)]
  | (k0, v0) :: rest, k, v =>
      if k0 = k then (k, v) :: rest else (k0, v0) :: setEntry rest k v

/-- Membership of a key in an association list (Python `k in d`). -/
def hasEntry {α β : Type} [DecidableEq α] (l : List (α × β)) (k : α) : Bool :=
  l.any (fun p => p.1 = k)

/-- Lookup in an association list. -/
def getEntry {α β : Type} [DecidableEq α] : List (α × β) → α → Option β
  | [], _ => Option.none
  | (k0, v0) :: rest, k => if k0 = k then some v0 else getEntry rest k

/-! ## `ModifyProperties`

A Blender object, as seen by `ModifyProperties`, is its name plus its map of
custom properties (`sKey in _objX`, `_objX[sKey] = xValue`), plus the
`update_tag` mark set at the end of a successful run.  Keys of the Python
dict `mValues` are modelled as strings; the source's guard
`isinstance(sKey, str)` is therefore vacuous in the model.  The source reads
`mp.dicValues`; attribute access for the parameter object's declared
`mValues` field is modelled as yielding the configuration's `mValues` value
(the field is `REQUIRED`; an absent or non-dict value is modelled by
`Option.none`, taking the source's `isinstance(..., dict)` guard). -/

/-- A Blender object as accessed by `ModifyProperties`. -/
structure CustomPropObj where
  name : String
  props : List (String × PyVal)
  updateTagged : Bool
deriving Repr

/-- Is a value accepted by `ModifyProperties` (the source's
`isinstance(xValue, int) or isinstance(xValue, float) or
isinstance(xValue, str)`)? -/
def isSupportedPropVal (v : PyVal) : Bool :=
  v.isInstInt || v.isInstFloat || v.isInstStr

/-- The `for sKey, xValue in mp.dicValues.items():` loop of
`ModifyProperties`.  Returns the (possibly partially) mutated object together
with the message of the raised exception, if any: the Blender object keeps
the mutations applied before the raise. -/
def modifyPropertiesLoop (obj : CustomPropObj) :
    List (String × PyVal) → CustomPropObj × Option String
  | [] => (obj, Option.none)
  | (sKey, xValue) :: rest =>
      if hasEntry obj.props sKey = false then
        (obj, some ("Property " ++ sq ++ sKey ++ sq ++ " not found in object "
          ++ sq ++ obj.name ++ sq))
      else if isSupportedPropVal xValue then
        modifyPropertiesLoop { obj with props := setEntry obj.props sKey xValue } rest
      else
        (obj, some ("Value for property " ++ sq ++ sKey ++ sq
          ++ " of unsupported type " ++ sq ++ convertToTypename xValue ++ sq))

/-- `ModifyProperties(_objX, _dicMod)`.  `mValues` is the configuration's
values map (`Option.none` models a missing/non-dict element, rejected by the
source's guard).  On success the object is `update_tag`ged. -/
def ModifyProperties (obj : CustomPropObj) (mValues : Option (List (String × PyVal))) :
    CustomPropObj × Option String :=
  match mValues with
  | Option.none => (obj, some "Missing element \x27mValues\x27 in modify properties modifier")
  | some dicValues =>
      match modifyPropertiesLoop obj dicValues with
      | (obj1, Option.none) => ({ obj1 with updateTagged := true }, Option.none)
      | (obj1, some e) => (obj1, some e)

/-- C1: `ModifyProperties` iterates the entries of its values map and, per
entry: raises an error identifying the key when the key is not an existing
custom property of the object; assigns the value to the object's custom
property (continuing with the rest of the map) when the value is an int,
float, or string (in Python's `isinstance` sense, so booleans count as ints);
and raises an error naming the key and the value's type for every value of
any other type. -/
theorem modifyProperties_entry_spec (obj : CustomPropObj) (sKey : String) (xValue : PyVal)
    (rest : List (String × PyVal)) :
    (hasEntry obj.props sKey = false →
      ModifyProperties obj (some ((sKey, xValue) :: rest))
        = (obj, some ("Property " ++ sq ++ sKey ++ sq ++ " not found in object "
            ++ sq ++ obj.name ++ sq)))
    ∧ (hasEntry obj.props sKey = true → isSupportedPropVal xValue = true →
      ModifyProperties obj (some ((sKey, xValue) :: rest))
        = ModifyProperties { obj with props := setEntry obj.props sKey xValue } (some rest))
    ∧ (hasEntry obj.props sKey = true → isSupportedPropVal xValue = false →
      ModifyProperties obj (some ((sKey, xValue) :: rest))
        = (obj, some ("Value for property " ++ sq ++ sKey ++ sq
            ++ " of unsupported type " ++ sq ++ convertToTypename xValue ++ sq))) := by
  refine ⟨fun h1 => ?_, fun h1 h2 => ?_, fun h1 h2 => ?_⟩
  · simp [ModifyProperties, modifyPropertiesLoop, h1]
  · simp [ModifyProperties, modifyPropertiesLoop, h1, h2]
  · simp [ModifyProperties, modifyPropertiesLoop, h1, h2]

/-- Witness for C1 at concrete inputs: a missing key errors, a present key
with a string value is assigned, a present key with a list value errors. -/
theorem modifyProperties_entry_spec_witness :
    (ModifyProperties ⟨"Cube", [("scale", PyVal.int 1)], false⟩
        (some [("missing", PyVal.int 2)])
      = (⟨"Cube", [("scale", PyVal.int 1)], false⟩,
          some ("Property " ++ sq ++ "missing" ++ sq ++ " not found in object "
            ++ sq ++ "Cube" ++ sq)))
    ∧ (ModifyProperties ⟨"Cube", [("scale", PyVal.int 1)], false⟩
        (some [("scale", PyVal.str "big")])
      = ModifyProperties
          ⟨"Cube", setEntry [("scale", PyVal.int 1)] "scale" (PyVal.str "big"), false⟩
          (some []))
    ∧ (ModifyProperties ⟨"Cube", [("scale", PyVal.int 1)], false⟩
        (some [("scale", PyVal.list [])])
      = (⟨"Cube", [("scale", PyVal.int 1)], false⟩,
          some ("Value for property " ++ sq ++ "scale" ++ sq
            ++ " of unsupported type " ++ sq ++ convertToTypename (PyVal.list []) ++ sq))) :=
  ⟨(modifyProperties_entry_spec ⟨"Cube", [("scale", PyVal.int 1)], false⟩
      "missing" (PyVal.int 2) []).1 (by decide),
   (modifyProperties_entry_spec ⟨"Cube", [("scale", PyVal.int 1)], false⟩
      "scale" (PyVal.str "big") []).2.1 (by decide) (by decide),
   (modifyProperties_entry_spec ⟨"Cube", [("scale", PyVal.int 1)], false⟩
      "scale" (PyVal.list []) []).2.2 (by decide) (by decide)⟩

/-! ## `ModifyAttributes`

`ModifyAttributes` walks dotted attribute paths through arbitrary host
objects (`hasattr`/`getattr`/`setattr`).  The reachable host objects are
modelled as a heap of attribute records indexed by `Nat` references; a
`PyVal.ref` points into the heap.  Non-reference values expose no attributes
in the model.  `setattr` can fail in Blender (read-only attributes, property
setters that raise); an object's `readOnly` list names the attributes whose
assignment raises. -/

/-- An attribute record of a host object. -/
structure AttrObj where
  attrs : List (String × PyVal)
  readOnly : List String
deriving Repr

/-- The heap of host objects reachable by attribute walks. -/
abbrev Heap := List (Nat × AttrObj)

/-- Python `hasattr(v, k)` over the heap. -/
def pyHasattr (h : Heap) (v : PyVal) (k : String) : Bool :=
  match v with
  | .ref r =>
      match getEntry h r with
      | some o => hasEntry o.attrs k
      | Option.none => false
  | _ => false

/-- Python `getattr(v, k)` over the heap (only called by the source after a
successful `hasattr`). -/
def pyGetattr (h : Heap) (v : PyVal) (k : String) : PyVal :=
  match v with
  | .ref r =>
      match getEntry h r with
      | some o => (getEntry o.attrs k).getD PyVal.none
      | Option.none => PyVal.none
  | _ => PyVal.none

/-- Replace the record at reference `r`. -/
def heapSet (h : Heap) (r : Nat) (o : AttrObj) : Heap :=
  h.map (fun p => if p.1 = r then (r, o) else p)

/-- Python `setattr(v, k, x)` over the heap: `Option.none` models a raised
exception (assignment to a read-only attribute, or a target that is not an
attribute-bearing object). -/
def pySetattr (h : Heap) (v : PyVal) (k : String) (x : PyVal) : Option Heap :=
  match v with
  | .ref r =>
      match getEntry h r with
      | some o =>
          if o.readOnly.contains k then Option.none
          else some (heapSet h r { o with attrs := setEntry o.attrs k x })
      | Option.none => Option.none
  | _ => Option.none

/-- Helper of `pySplitDot`: `acc` holds the characters of the current
segment, reversed. -/
def splitDotAux : List Char → List Char → List String
  | [], acc => [String.mk acc.reverse]
  | c :: rest, acc =>
      if c = '.' then String.mk acc.reverse :: splitDotAux rest []
      else splitDotAux rest (c :: acc)

/-- Python `sKey.split(".")`: splits on every "." and never returns an empty
list (the empty string splits to `[""]`). -/
def pySplitDot (s : String) : List String := splitDotAux s.data []

/-- The `for iIdx, sSubKey in enumerate(lKey):` walk of `ModifyAttributes`:
`objY` is the object reached so far, `lPath` the path walked so far (starting
at the root object's name), `sSubKey :: rest` the remaining path segments.
Returns the object holding the final segment together with the final segment
(`sFinalKey`), or the error raised for the first absent segment.  As in the
source, the final segment's presence is checked (`hasattr`) before the loop
breaks. -/
def attrWalk (h : Heap) (objY : PyVal) (lPath : List String) (sSubKey : String)
    (rest : List String) : Except String (PyVal × String) :=
  if pyHasattr h objY sSubKey = false then
    .error ("Object " ++ sq ++ String.intercalate "." lPath ++ sq
      ++ " has no attribute " ++ sq ++ sSubKey ++ sq)
  else
    match rest with
    | [] => .ok (objY, sSubKey)
    | nxt :: rest2 => attrWalk h (pyGetattr h objY sSubKey) (lPath ++ [sSubKey]) nxt rest2

/-- Processing of one `sKey, xValue` entry by `ModifyAttributes`: split the
key on ".", walk, then `setattr` the final segment, wrapping any assignment
failure into the message naming the full dotted key and the root object.
`pySplitDot` never returns `[]`, so the first branch is unreachable; it is
mapped to the same wrapped message the source's `except` clause would
produce. -/
def modifyAttrKey (h : Heap) (rootRef : Nat) (rootName : String) (sKey : String)
    (xValue : PyVal) : Except String Heap :=
  match pySplitDot sKey with
  | [] => .error ("Could not set attribute " ++ sq ++ sKey ++ sq ++ " of object "
      ++ sq ++ rootName ++ sq ++ " to value: " ++ pyStr xValue ++ " ")
  | k :: ks =>
      match attrWalk h (PyVal.ref rootRef) [rootName] k ks with
      | .error e => .error e
      | .ok (objY, sFinalKey) =>
          match pySetattr h objY sFinalKey xValue with
          | some h2 => .ok h2
          | Option.none => .error ("Could not set attribute " ++ sq ++ sKey ++ sq
              ++ " of object " ++ sq ++ rootName ++ sq ++ " to value: "
              ++ pyStr xValue ++ " ")

/-- The `for sKey, xValue in dicValues.items():` loop of `ModifyAttributes`:
the heap keeps the edits applied before a raise. -/
def modifyAttributesLoop (h : Heap) (rootRef : Nat) (rootName : String) :
    List (String × PyVal) → Heap × Option String
  | [] => (h, Option.none)
  | (sKey, xValue) :: rest =>
      match modifyAttrKey h rootRef rootName sKey xValue with
      | .ok h2 => modifyAttributesLoop h2 rootRef rootName rest
      | .error e => (h, some e)

/-- `ModifyAttributes(_objX, _dicMod)`: `rootRef` is `_objX`, `rootName` its
`name`; `mValues` is the configuration's values map (`Option.none` models a
missing/non-dict element, rejected by the source's guard). -/
def ModifyAttributes (h : Heap) (rootRef : Nat) (rootName : String)
    (mValues : Option (List (String × PyVal))) : Heap × Option String :=
  match mValues with
  | Option.none => (h, some "Missing element \x27mValues\x27 in modify attributes modifier")
  | some dicValues => modifyAttributesLoop h rootRef rootName dicValues

/-- Reference walk used to state C2: follow a list of segments from a value,
returning the value reached, or `Option.none` as soon as a segment is absent. -/
def walkOk (h : Heap) : PyVal → List String → Option PyVal
  | v, [] => some v
  | v, k :: ks => if pyHasattr h v k then walkOk h (pyGetattr h v k) ks else Option.none

/-- If the walk reaches `y` through the segments `pre` and the next segment
`si` is absent on `y`, the loop of `ModifyAttributes` raises the error naming
the path walked so far and the missing segment. -/
theorem attrWalk_absent (h : Heap) (pre : List String) :
    ∀ (objY : PyVal) (lPath : List String) (y : PyVal) (si : String)
      (post : List String) (k : String) (ks : List String),
      pre ++ si :: post = k :: ks →
      walkOk h objY pre = some y → pyHasattr h y si = false →
      attrWalk h objY lPath k ks
        = .error ("Object " ++ sq ++ String.intercalate "." (lPath ++ pre) ++ sq
            ++ " has no attribute " ++ sq ++ si ++ sq) := by
  induction pre with
  | nil =>
      intro objY lPath y si post k ks hcons hwalk habs
      simp only [List.nil_append] at hcons
      injection hcons with hk hks
      subst hk
      subst hks
      simp only [walkOk, Option.some.injEq] at hwalk
      subst hwalk
      unfold attrWalk
      simp [habs]
  | cons p pre2 ih =>
      intro objY lPath y si post k ks hcons hwalk habs
      simp only [List.cons_append] at hcons
      injection hcons with hk hks
      subst hk
      subst hks
      simp only [walkOk] at hwalk
      by_cases hp : pyHasattr h objY p = true
      · rw [if_pos hp] at hwalk
        unfold attrWalk
        rw [hp, if_neg (by simp)]
        cases hrest : pre2 ++ si :: post with
        | nil => simp at hrest
        | cons nxt rest2 =>
            have := ih (pyGetattr h objY p) (lPath ++ [p]) y si post nxt rest2 hrest hwalk habs
            simpa using this
      · rw [if_neg hp] at hwalk
        exact absurd hwalk (by simp)

/-- If the walk reaches `y` through all segments but the last one and the
last segment is present on `y`, the loop of `ModifyAttributes` returns `y`
and the last segment for the final assignment. -/
theorem attrWalk_found (h : Heap) (front : List String) :
    ∀ (objY : PyVal) (lPath : List String) (y : PyVal) (last : String)
      (k : String) (ks : List String),
      front ++ [last] = k :: ks →
      walkOk h objY front = some y → pyHasattr h y last = true →
      attrWalk h objY lPath k ks = .ok (y, last) := by
  induction front with
  | nil =>
      intro objY lPath y last k ks hcons hwalk hpres
      simp only [List.nil_append] at hcons
      injection hcons with hk hks
      subst hk
      subst hks
      simp only [walkOk, Option.some.injEq] at hwalk
      subst hwalk
      unfold attrWalk
      simp [hpres]
  | cons p front2 ih =>
      intro objY lPath y last k ks hcons hwalk hpres
      simp only [List.cons_append] at hcons
      injection hcons with hk hks
      subst hk
      subst hks
      simp only [walkOk] at hwalk
      by_cases hp : pyHasattr h objY p = true
      · rw [if_pos hp] at hwalk
        unfold attrWalk
        rw [hp, if_neg (by simp)]
        cases hrest : front2 ++ [last] with
        | nil => simp at hrest
        | cons nxt rest2 =>
            exact ih (pyGetattr h objY p) (lPath ++ [p]) y last nxt rest2 hrest hwalk hpres
      · rw [if_neg hp] at hwalk
        exact absurd hwalk (by simp)

/-- C2: for a key of `ModifyAttributes`, the key is split on "." into
segments; the walk raises an error as soon as a segment is absent on the
object reached so far, naming the path walked so far (starting at the root
object's name) and the missing segment; otherwise the final segment is
assigned on the object reached, and a failing final assignment is reported
with the full dotted key and the root object's name. -/
theorem modifyAttributes_key_spec (h : Heap) (rootRef : Nat) (rootName : String)
    (sKey : String) (xValue : PyVal) (seg0 : String) (segs : List String)
    (hsplit : pySplitDot sKey = seg0 :: segs) :
    (∀ pre si post y, seg0 :: segs = pre ++ si :: post →
      walkOk h (PyVal.ref rootRef) pre = some y →
      pyHasattr h y si = false →
      modifyAttrKey h rootRef rootName sKey xValue
        = .error ("Object " ++ sq ++ String.intercalate "." (rootName :: pre) ++ sq
            ++ " has no attribute " ++ sq ++ si ++ sq))
    ∧ (∀ front last y, seg0 :: segs = front ++ [last] →
      walkOk h (PyVal.ref rootRef) front = some y →
      pyHasattr h y last = true →
      ((∀ h2, pySetattr h y last xValue = some h2 →
          modifyAttrKey h rootRef rootName sKey xValue = .ok h2)
       ∧ (pySetattr h y last xValue = Option.none →
          modifyAttrKey h rootRef rootName sKey xValue
            = .error ("Could not set attribute " ++ sq ++ sKey ++ sq ++ " of object "
                ++ sq ++ rootName ++ sq ++ " to value: " ++ pyStr xValue ++ " ")))) := by
  constructor
  · intro pre si post y hdec hwalk habs
    have hw := attrWalk_absent h pre (PyVal.ref rootRef) [rootName] y si post seg0 segs
      hdec.symm hwalk habs
    simp only [modifyAttrKey, hsplit, hw]
    simp
  · intro front last y hdec hwalk hpres
    have hw := attrWalk_found h front (PyVal.ref rootRef) [rootName] y last seg0 segs
      hdec.symm hwalk hpres
    constructor
    · intro h2 hset
      simp only [modifyAttrKey, hsplit, hw, hset]
    · intro hset
      simp only [modifyAttrKey, hsplit, hw, hset]

/-- Concrete heap used by witnesses: object 0 (the root, named "Cube" by the
callers) has an attribute `location` referring to object 1; object 1 has a
writable attribute `x` and a read-only attribute `f`. -/
def demoHeap : Heap :=
  [(0, ⟨[("location", PyVal.ref 1)], []⟩),
   (1, ⟨[("x", PyVal.int 0), ("f", PyVal.int 1)], ["f"]⟩)]

/-- Witness for C2 at concrete inputs: a missing segment after one walked
segment errors with the walked path; a present final segment is assigned; a
read-only final segment yields the wrapped assignment error. -/
theorem modifyAttributes_key_spec_witness :
    (modifyAttrKey demoHeap 0 "Cube" "location.z" (PyVal.int 5)
      = .error ("Object " ++ sq ++ String.intercalate "." ("Cube" :: ["location"]) ++ sq
          ++ " has no attribute " ++ sq ++ "z" ++ sq))
    ∧ (modifyAttrKey demoHeap 0 "Cube" "location.x" (PyVal.int 7)
      = .ok (heapSet demoHeap 1
          ⟨setEntry [("x", PyVal.int 0), ("f", PyVal.int 1)] "x" (PyVal.int 7), ["f"]⟩))
    ∧ (modifyAttrKey demoHeap 0 "Cube" "location.f" (PyVal.int 9)
      = .error ("Could not set attribute " ++ sq ++ "location.f" ++ sq ++ " of object "
          ++ sq ++ "Cube" ++ sq ++ " to value: " ++ pyStr (PyVal.int 9) ++ " ")) :=
  ⟨(modifyAttributes_key_spec demoHeap 0 "Cube" "location.z" (PyVal.int 5)
      "location" ["z"] rfl).1 ["location"] "z" [] (PyVal.ref 1) rfl rfl rfl,
   ((modifyAttributes_key_spec demoHeap 0 "Cube" "location.x" (PyVal.int 7)
      "location" ["x"] rfl).2 ["location"] "x" (PyVal.ref 1) rfl rfl rfl).1
      (heapSet demoHeap 1
        ⟨setEntry [("x", PyVal.int 0), ("f", PyVal.int 1)] "x" (PyVal.int 7), ["f"]⟩) rfl,
   ((modifyAttributes_key_spec demoHeap 0 "Cube" "location.f" (PyVal.int 9)
      "location" ["f"] rfl).2 ["location"] "f" (PyVal.ref 1) rfl rfl rfl).2 rfl⟩

/-! ## Sequential processing and absence of rollback (C7)

Both values-map loops process entries left to right over a mutable state (the
Blender object's custom properties, resp. the attribute heap) and raise on
the first failing entry, keeping the mutations already applied.  `stepRun`
captures this common shape; each loop is proved equal to `stepRun` of its
per-entry step. -/

/-- Run a fallible step over a list of entries, left to right, stopping at
the first error and keeping the state reached so far. -/
def stepRun {σ : Type} (f : σ → String × PyVal → Except String σ) :
    σ → List (String × PyVal) → σ × Option String
  | s, [] => (s, Option.none)
  | s, e :: rest =>
      match f s e with
      | .ok s2 => stepRun f s2 rest
      | .error msg => (s, some msg)

/-- Number of leading entries a run of `stepRun` processes successfully. -/
def okSteps {σ : Type} (f : σ → String × PyVal → Except String σ) :
    σ → List (String × PyVal) → Nat
  | _, [] => 0
  | s, e :: rest =>
      match f s e with
      | .ok s2 => okSteps f s2 rest + 1
      | .error _ => 0

/-- A run of `stepRun` is exactly the run of its maximal successful prefix:
that prefix errors nowhere, the final state is its state (no rollback, and
nothing past the first failing entry is applied), the reported error is the
one produced while processing the first failing entry, and an error is
reported exactly when some entry fails. -/
theorem stepRun_take_okSteps {σ : Type} (f : σ → String × PyVal → Except String σ) :
    ∀ (l : List (String × PyVal)) (s : σ),
      (stepRun f s l).1 = (stepRun f s (l.take (okSteps f s l))).1
      ∧ (stepRun f s (l.take (okSteps f s l))).2 = Option.none
      ∧ (stepRun f s l).2 = (stepRun f s (l.take (okSteps f s l + 1))).2
      ∧ ((stepRun f s l).2 ≠ Option.none → okSteps f s l < l.length) := by
  intro l
  induction l with
  | nil =>
      intro s
      refine ⟨rfl, rfl, rfl, fun hne => absurd rfl hne⟩
  | cons e rest ih =>
      intro s
      cases hf : f s e with
      | ok s2 =>
          have ihs := ih s2
          refine ⟨?_, ?_, ?_, fun hne => ?_⟩
          · simpa [stepRun, okSteps, hf] using ihs.1
          · simpa [stepRun, okSteps, hf] using ihs.2.1
          · simpa [stepRun, okSteps, hf] using ihs.2.2.1
          · have := ihs.2.2.2 (by simpa [stepRun, hf] using hne)
            simp only [okSteps, hf, List.length_cons]
            omega
      | error msg =>
          refine ⟨?_, ?_, ?_, fun _ => ?_⟩ <;> simp [stepRun, okSteps, hf]

/-- The per-entry step of `ModifyProperties`. -/
def propStep (obj : CustomPropObj) (e : String × PyVal) : Except String CustomPropObj :=
  if hasEntry obj.props e.1 = false then
    .error ("Property " ++ sq ++ e.1 ++ sq ++ " not found in object "
      ++ sq ++ obj.name ++ sq)
  else if isSupportedPropVal e.2 then
    .ok { obj with props := setEntry obj.props e.1 e.2 }
  else
    .error ("Value for property " ++ sq ++ e.1 ++ sq
      ++ " of unsupported type " ++ sq ++ convertToTypename e.2 ++ sq)

/-- The per-entry step of `ModifyAttributes`. -/
def attrStep (rootRef : Nat) (rootName : String) (h : Heap) (e : String × PyVal) :
    Except String Heap :=
  modifyAttrKey h rootRef rootName e.1 e.2

/-- The loop of `ModifyProperties` is the sequential run of its step. -/
theorem modifyPropertiesLoop_eq_stepRun :
    ∀ (l : List (String × PyVal)) (obj : CustomPropObj),
      modifyPropertiesLoop obj l = stepRun propStep obj l := by
  intro l
  induction l with
  | nil => intro obj; rfl
  | cons e rest ih =>
      intro obj
      obtain ⟨sKey, xValue⟩ := e
      by_cases h1 : hasEntry obj.props sKey = false
      · simp [modifyPropertiesLoop, stepRun, propStep, h1]
      · by_cases h2 : isSupportedPropVal xValue = true
        · simp only [modifyPropertiesLoop, stepRun, propStep, h1, h2]
          simp [ih]
        · simp [modifyPropertiesLoop, stepRun, propStep, h1, h2]

/-- The loop of `ModifyAttributes` is the sequential run of its step. -/
theorem modifyAttributesLoop_eq_stepRun (rootRef : Nat) (rootName : String) :
    ∀ (l : List (String × PyVal)) (h : Heap),
      modifyAttributesLoop h rootRef rootName l = stepRun (attrStep rootRef rootName) h l := by
  intro l
  induction l with
  | nil => intro h; rfl
  | cons e rest ih =>
      intro h
      obtain ⟨sKey, xValue⟩ := e
      simp only [modifyAttributesLoop, stepRun, attrStep]
      cases modifyAttrKey h rootRef rootName sKey xValue with
      | ok h2 => simp [ih]
      | error msg => rfl

/-- C7: when a values-map run of `ModifyProperties` or `ModifyAttributes`
raises at entry `i` (`i` being the number of leading successful entries),
the final state is exactly the state after the successful prefix — the
earlier assignments remain applied and no assignment of entry `i` or a later
entry is performed — the prefix itself raises nothing, the reported error is
the one raised while processing entry `i`, and an error is reported exactly
when the run stops before the end of the map. -/
theorem modifiers_no_rollback (obj : CustomPropObj) (h : Heap) (rootRef : Nat)
    (rootName : String) (pl al : List (String × PyVal)) :
    ((modifyPropertiesLoop obj pl).1
        = (modifyPropertiesLoop obj (pl.take (okSteps propStep obj pl))).1
      ∧ (modifyPropertiesLoop obj (pl.take (okSteps propStep obj pl))).2 = Option.none
      ∧ (modifyPropertiesLoop obj pl).2
        = (modifyPropertiesLoop obj (pl.take (okSteps propStep obj pl + 1))).2
      ∧ ((modifyPropertiesLoop obj pl).2 ≠ Option.none →
          okSteps propStep obj pl < pl.length))
    ∧ ((modifyAttributesLoop h rootRef rootName al).1
        = (modifyAttributesLoop h rootRef rootName
            (al.take (okSteps (attrStep rootRef rootName) h al))).1
      ∧ (modifyAttributesLoop h rootRef rootName
            (al.take (okSteps (attrStep rootRef rootName) h al))).2 = Option.none
      ∧ (modifyAttributesLoop h rootRef rootName al).2
        = (modifyAttributesLoop h rootRef rootName
            (al.take (okSteps (attrStep rootRef rootName) h al + 1))).2
      ∧ ((modifyAttributesLoop h rootRef rootName al).2 ≠ Option.none →
          okSteps (attrStep rootRef rootName) h al < al.length)) := by
  constructor
  · have hs := stepRun_take_okSteps propStep pl obj
    rw [modifyPropertiesLoop_eq_stepRun, modifyPropertiesLoop_eq_stepRun,
      modifyPropertiesLoop_eq_stepRun]
    exact hs
  · have hs := stepRun_take_okSteps (attrStep rootRef rootName) al h
    rw [modifyAttributesLoop_eq_stepRun, modifyAttributesLoop_eq_stepRun,
      modifyAttributesLoop_eq_stepRun]
    exact hs

/-- Witness for C7 at concrete inputs: on `demoHeap`, the first entry is
assigned, the second raises, the third is never applied; the final heap is
the one after the one-entry prefix. -/
theorem modifiers_no_rollback_witness :
    ((modifyAttributesLoop demoHeap 0 "Cube"
        [("location.x", PyVal.int 7), ("location.z", PyVal.int 5),
         ("location.x", PyVal.int 8)]).1
      = (modifyAttributesLoop demoHeap 0 "Cube"
          ([("location.x", PyVal.int 7), ("location.z", PyVal.int 5),
            ("location.x", PyVal.int 8)].take
            (okSteps (attrStep 0 "Cube") demoHeap
              [("location.x", PyVal.int 7), ("location.z", PyVal.int 5),
               ("location.x", PyVal.int 8)]))).1)
    ∧ okSteps (attrStep 0 "Cube") demoHeap
        [("location.x", PyVal.int 7), ("location.z", PyVal.int 5),
         ("location.x", PyVal.int 8)] < 3 :=
  ⟨(modifiers_no_rollback ⟨"Cube", [], false⟩ demoHeap 0 "Cube" []
      [("location.x", PyVal.int 7), ("location.z", PyVal.int 5),
       ("location.x", PyVal.int 8)]).2.1,
   (modifiers_no_rollback ⟨"Cube", [], false⟩ demoHeap 0 "Cube" []
      [("location.x", PyVal.int 7), ("location.z", PyVal.int 5),
       ("location.x", PyVal.int 8)]).2.2.2.2 (by decide)⟩

/-! ## `Enable` / `_EnableRender` (C8)

The object and its child hierarchy are modelled as a finite tree.  Each node
carries the fields a Blender object exposes that this module ever touches or
could touch: `_EnableRender` writes only `hide_render`; the other fields are
carried to state that they are left unchanged. -/

/-- The per-object data of a scene object. -/
structure ObjData where
  name : String
  hide_render : Bool
  hide_viewport : Bool
  customProps : List (String × PyVal)
deriving Repr

/-- An object with its children (`obj.children` recursively). -/
inductive ObjTree where
  | node (data : ObjData) (children : List ObjTree)

mutual

/-- `_EnableRender(_objX, _bEnable, bRecursive)`: sets `hide_render` to
`not _bEnable` and, when `bRecursive`, recurses into all children. -/
def enableRender (o : ObjTree) (bEnable : Bool) (bRecursive : Bool) : ObjTree :=
  match o with
  | .node d cs =>
      .node { d with hide_render := !bEnable }
        (if bRecursive then enableRenderList cs bEnable bRecursive else cs)

/-- The `for objC in _objX.children:` loop of `_EnableRender`. -/
def enableRenderList (cs : List ObjTree) (bEnable : Bool) (bRecursive : Bool) :
    List ObjTree :=
  match cs with
  | [] => []
  | c :: rest => enableRender c bEnable bRecursive :: enableRenderList rest bEnable bRecursive

end

/-- `Enable(_objX, _dicMod)`: reads the required `xValue` parameter and calls
`_EnableRender(_objX, bEnable, bRecursive=True)`. -/
def Enable (objX : ObjTree) (xValue : Bool) : ObjTree :=
  enableRender objX xValue true

mutual

/-- Preorder list of the object data of a tree. -/
def flattenTree : ObjTree → List ObjData
  | .node d cs => d :: flattenForest cs

/-- Preorder list of the object data of a forest. -/
def flattenForest : List ObjTree → List ObjData
  | [] => []
  | c :: rest => flattenTree c ++ flattenForest rest

end

mutual

/-- Preorder list of the child counts of a tree (its shape). -/
def shapeTree : ObjTree → List Nat
  | .node _ cs => cs.length :: shapeForest cs

/-- Preorder list of the child counts of a forest. -/
def shapeForest : List ObjTree → List Nat
  | [] => []
  | c :: rest => shapeTree c ++ shapeForest rest

end

mutual

/-- Recursive enabling maps every node's data, toggling only `hide_render`. -/
theorem flattenTree_enableRender : ∀ (t : ObjTree) (b : Bool),
    flattenTree (enableRender t b true)
      = (flattenTree t).map (fun d => { d with hide_render := !b })
  | .node d cs, b => by
      simp [enableRender, flattenTree, flattenForest_enableRenderList cs b]

/-- Forest version of `flattenTree_enableRender`. -/
theorem flattenForest_enableRenderList : ∀ (cs : List ObjTree) (b : Bool),
    flattenForest (enableRenderList cs b true)
      = (flattenForest cs).map (fun d => { d with hide_render := !b })
  | [], _ => by simp [enableRenderList, flattenForest]
  | c :: rest, b => by
      simp [enableRenderList, flattenForest, flattenTree_enableRender c b,
        flattenForest_enableRenderList rest b]

end

mutual

/-- Recursive enabling preserves the tree shape. -/
theorem shapeTree_enableRender : ∀ (t : ObjTree) (b : Bool),
    shapeTree (enableRender t b true) = shapeTree t
  | .node d cs, b => by
      have hlen : ∀ (l : List ObjTree) (bb : Bool),
          (enableRenderList l bb true).length = l.length := by
        intro l bb
        induction l with
        | nil => rfl
        | cons c rest ih => simp [enableRenderList, ih]
      simp [enableRender, shapeTree, shapeForest_enableRenderList cs b, hlen]

/-- Forest version of `shapeTree_enableRender`. -/
theorem shapeForest_enableRenderList : ∀ (cs : List ObjTree) (b : Bool),
    shapeForest (enableRenderList cs b true) = shapeForest cs
  | [], _ => by simp [enableRenderList, shapeForest]
  | c :: rest, b => by
      simp [enableRenderList, shapeForest, shapeTree_enableRender c b,
        shapeForest_enableRenderList rest b]

end

/-- C8: `Enable` sets the `hide_render` flag of the object and of every
descendant in its child hierarchy to the negation of `xValue`, preserves the
hierarchy's shape, and changes no other field (`name`, `hide_viewport`,
custom properties) of any object. -/
theorem enable_render_toggle (t : ObjTree) (b : Bool) :
    flattenTree (Enable t b) = (flattenTree t).map (fun d => { d with hide_render := !b })
    ∧ shapeTree (Enable t b) = shapeTree t :=
  ⟨flattenTree_enableRender t b, shapeTree_enableRender t b⟩

/-! ## `RenameObject` (C3, C4, C10)

`RenameObject` renames either literally or through Python's `re.sub`.
`re.sub` belongs to the Python standard library; it is modelled here over a
core of Python's pattern language: patterns are represented by their abstract
syntax (`Regex`: empty pattern, literal character, ".", concatenation,
alternation, greedy star with backtracking, numbered capture groups), the
empty pattern string being `Regex.emp`.  The matcher is a fuelled
backtracking matcher in continuation style with Python's leftmost/greedy
semantics (a star repetition stops at an empty body match).  The scanner
follows Python 3.7+ `re.sub` semantics: at each position the leftmost match
is replaced by the expanded template and scanning resumes after it, an empty
match is replaced and scanning advances one character, and unmatched groups
expand to the empty string.  Replacement templates are the source's
`sReplace` strings, with `\\N` group references (single digit, core of
Python's template syntax). -/

/-- Abstract syntax of a core of Python regular expressions. -/
inductive Regex where
  | emp : Regex
  | char : Char → Regex
  | any : Regex
  | seq : Regex → Regex → Regex
  | alt : Regex → Regex → Regex
  | star : Regex → Regex
  | group : Nat → Regex → Regex
deriving Repr, DecidableEq

/-- Size of a pattern, used to budget matcher fuel. -/
def Regex.size : Regex → Nat
  | .emp => 1
  | .char _ => 1
  | .any => 1
  | .seq a b => a.size + b.size + 1
  | .alt a b => a.size + b.size + 1
  | .star r => r.size + 1
  | .group _ r => r.size + 1

/-- Captured group contents, by group number. -/
abbrev Caps := List (Nat × List Char)

/-- Backtracking matcher in continuation style.  `mtch fuel re s g k` tries
to match `re` at the start of `s` with captures `g`, calling `k` on every
candidate (remaining input, captures) in Python's preference order: greedy
star (longest first, with full backtracking), left alternative first.  A star
iteration must consume input, as in Python, where a repetition stops at an
empty body match. -/
def mtch : Nat → Regex → List Char → Caps →
    (List Char → Caps → Option (List Char × Caps)) → Option (List Char × Caps)
  | 0, _, _, _, _ => Option.none
  | _ + 1, .emp, s, g, k => k s g
  | _ + 1, .char c, s, g, k =>
      match s with
      | [] => Option.none
      | a :: s2 => if a = c then k s2 g else Option.none
  | _ + 1, .any, s, g, k =>
      match s with
      | [] => Option.none
      | _ :: s2 => k s2 g
  | n + 1, .seq r1 r2, s, g, k => mtch n r1 s g (fun s2 g2 => mtch n r2 s2 g2 k)
  | n + 1, .alt r1 r2, s, g, k =>
      match mtch n r1 s g k with
      | some res => some res
      | Option.none => mtch n r2 s g k
  | n + 1, .star r, s, g, k =>
      match mtch n r s g (fun s2 g2 =>
          if s2.length < s.length then mtch n (.star r) s2 g2 k else Option.none) with
      | some res => some res
      | Option.none => k s g
  | n + 1, .group i r, s, g, k =>
      mtch n r s g (fun s2 g2 => k s2 (setEntry g2 i (s.take (s.length - s2.length))))

/-- Anchored leftmost match of `re` at the start of `s`: the remaining input
and the captures of the preferred match, if any. -/
def matchHere (re : Regex) (s : List Char) : Option (List Char × Caps) :=
  mtch ((re.size + 1) * (s.length + 2)) re s [] (fun s2 g => some (s2, g))

/-- One item of a parsed replacement template. -/
inductive ReplItem where
  | lit : Char → ReplItem
  | grp : Nat → ReplItem
deriving Repr, DecidableEq

/-- Parse of a Python replacement template (core): `\\N` is a group
reference for a single digit `N`, `\\\\` a literal backslash, any other
character stands for itself. -/
def parseRepl : List Char → List ReplItem
  | [] => []
  | '\\' :: c :: rest =>
      if c.isDigit then .grp (c.toNat - '0'.toNat) :: parseRepl rest
      else if c = '\\' then .lit '\\' :: parseRepl rest
      else .lit '\\' :: .lit c :: parseRepl rest
  | c :: rest => .lit c :: parseRepl rest

/-- Expansion of a parsed template against the whole match and the captures;
group 0 is the whole match and an unmatched group expands to the empty
string (Python 3.5+ `re.sub` semantics). -/
def expandRepl (items : List ReplItem) (whole : List Char) (caps : Caps) : List Char :=
  match items with
  | [] => []
  | .lit c :: rest => c :: expandRepl rest whole caps
  | .grp 0 :: rest => whole ++ expandRepl rest whole caps
  | .grp (n + 1) :: rest => ((getEntry caps (n + 1)).getD []) ++ expandRepl rest whole caps

/-- Scanner of `re.sub`: try the pattern at the current position; on failure
copy one character and resume; on a match emit the expanded template and
resume after the match, advancing one (copied) character when the match was
empty.  Every step consumes at least one character, so fuel
`s.length + 1` (as used by `reSub`) never runs out. -/
def reSubAux (re : Regex) (items : List ReplItem) : Nat → List Char → List Char
  | 0, s => s
  | f + 1, s =>
      match matchHere re s with
      | Option.none =>
          match s with
          | [] => []
          | c :: rest => c :: reSubAux re items f rest
      | some (rest, caps) =>
          expandRepl items (s.take (s.length - rest.length)) caps ++
            (if rest.length = s.length then
              match s with
              | [] => []
              | c :: r2 => c :: reSubAux re items f r2
            else reSubAux re items f rest)

/-- Model of Python `re.sub(sSearch, sReplace, sName)`. -/
def reSub (re : Regex) (repl : String) (s : String) : String :=
  String.mk (reSubAux re (parseRepl repl.data) (s.data.length + 1) s.data)

/-- The raw configuration dictionary of the rename modifier: each field is
present or absent.  The `sSearch` pattern string is represented by its
abstract syntax; the empty string is `Regex.emp`. -/
structure CRenameDict where
  sReplace : Option String
  bUseRegEx : Option Bool
  sSearch : Option Regex

/-- The parameter object built by `@paramclass` from the dictionary:
`sReplace` is `REQUIRED` (an absent field is modelled as `None`),
`bUseRegEx` has declared default `False` (deprecated alias `sUseRegEx`), and
`sSearch` has declared default `""`, so its resolved value is never `None`. -/
structure CRenameObjectParams where
  sReplace : Option String
  bUseRegEx : Bool
  sSearch : Option Regex

/-- Resolution of the rename parameter class against a dictionary, applying
the declared defaults. -/
def CRenameObjectParams.ofDict (d : CRenameDict) : CRenameObjectParams :=
  { sReplace := d.sReplace
    bUseRegEx := d.bUseRegEx.getD false
    sSearch := some (d.sSearch.getD Regex.emp) }

/-- `RenameObject(_objX, _dicMod)`: returns the new object name assigned to
`_objX.name`, or the raised error. -/
def RenameObject (oldName : String) (d : CRenameDict) : Except String String :=
  let mp := CRenameObjectParams.ofDict d
  match mp.sReplace with
  | Option.none => .error "Element \x27sReplace\x27 not given in object rename modifier"
  | some sReplace =>
      if mp.bUseRegEx then
        match mp.sSearch with
        | Option.none => .error "Element \x27sSearch\x27 not given in object rename modifier"
        | some sSearch => .ok (reSub sSearch sReplace oldName)
      else .ok sReplace

/-- C3: with `bUseRegEx` false (given or by default), `RenameObject` sets the
object's name to exactly the `sReplace` string, regardless of the previous
name and of `sSearch`. -/
theorem renameObject_literal (oldName : String) (d : CRenameDict) (r : String)
    (hregex : d.bUseRegEx.getD false = false) (hrepl : d.sReplace = some r) :
    RenameObject oldName d = .ok r := by
  simp [RenameObject, CRenameObjectParams.ofDict, hrepl, hregex]

/-- Witness for C3 at a concrete input: any previous name and any `sSearch`
give exactly the replacement. -/
theorem renameObject_literal_witness :
    RenameObject "Old.007" ⟨some "New", Option.none, some (Regex.char 'z')⟩ = .ok "New" :=
  renameObject_literal "Old.007" ⟨some "New", Option.none, some (Regex.char 'z')⟩ "New"
    rfl rfl

/-- If the pattern matches at no position of the input, the scanner returns
the input unchanged. -/
theorem reSubAux_nomatch (re : Regex) (items : List ReplItem) :
    ∀ (f : Nat) (l : List Char),
      (∀ i, matchHere re (l.drop i) = Option.none) → reSubAux re items f l = l := by
  intro f
  induction f with
  | zero => intro l _; rfl
  | succ f ih =>
      intro l h
      have h0 : matchHere re l = Option.none := by simpa using h 0
      rw [reSubAux.eq_def]
      simp only [h0]
      cases l with
      | nil => rfl
      | cons c rest =>
          have := ih rest (fun i => by simpa using h (i + 1))
          simp [this]

/-- If the pattern first matches at position `i`, the scanner copies the
first `i` characters, emits the expanded template for the match, and resumes
after the match (after one copied character when the match was empty). -/
theorem reSubAux_leftmost (re : Regex) (items : List ReplItem) :
    ∀ (i f : Nat) (l rest : List Char) (caps : Caps),
      (∀ j, j < i → matchHere re (l.drop j) = Option.none) →
      i ≤ l.length → i < f →
      matchHere re (l.drop i) = some (rest, caps) →
      reSubAux re items f l
        = l.take i
          ++ expandRepl items ((l.drop i).take ((l.drop i).length - rest.length)) caps
          ++ (if rest.length = (l.drop i).length then
                match l.drop i with
                | [] => []
                | c :: r2 => c :: reSubAux re items (f - i - 1) r2
              else reSubAux re items (f - i - 1) rest) := by
  intro i
  induction i with
  | zero =>
      intro f l rest caps _ _ hf hm
      cases f with
      | zero => omega
      | succ f2 =>
          simp only [List.drop_zero] at hm
          rw [reSubAux.eq_def]
          simp only [hm]
          simp
  | succ i ih =>
      intro f l rest caps hno hle hf hm
      cases l with
      | nil => simp at hle
      | cons c t =>
          cases f with
          | zero => omega
          | succ f2 =>
              have h0 : matchHere re (c :: t) = Option.none := by
                simpa using hno 0 (by omega)
              rw [reSubAux.eq_def]
              simp only [h0]
              have ht := ih f2 t rest caps
                (fun j hj => by simpa using hno (j + 1) (by omega))
                (by simpa using hle) (by omega)
                (by simpa using hm)
              have hfu : f2 - i - 1 = f2 + 1 - (i + 1) - 1 := by omega
              rw [hfu] at ht
              simp only [ht, List.take_succ_cons, List.drop_succ_cons, List.cons_append]

/-- C4: with `bUseRegEx` true, `RenameObject` sets the name to the result of
regular-expression substitution of `sSearch` by `sReplace` in the old name;
if the pattern matches at no position of the old name the name is unchanged,
and otherwise each leftmost match is replaced by the template expanded
against its capture groups, scanning continuing after it. -/
theorem renameObject_regex_spec (d : CRenameDict) (oldName : String) (pat : Regex)
    (r : String) (hregex : d.bUseRegEx.getD false = true) (hrepl : d.sReplace = some r)
    (hpat : d.sSearch = some pat) :
    RenameObject oldName d = .ok (reSub pat r oldName)
    ∧ ((∀ i, matchHere pat (oldName.data.drop i) = Option.none) →
        reSub pat r oldName = oldName)
    ∧ (∀ i rest caps,
        (∀ j, j < i → matchHere pat (oldName.data.drop j) = Option.none) →
        i ≤ oldName.data.length →
        matchHere pat (oldName.data.drop i) = some (rest, caps) →
        (reSub pat r oldName).data
          = oldName.data.take i
            ++ expandRepl (parseRepl r.data)
                ((oldName.data.drop i).take ((oldName.data.drop i).length - rest.length))
                caps
            ++ (if rest.length = (oldName.data.drop i).length then
                  match oldName.data.drop i with
                  | [] => []
                  | c :: r2 => c :: reSubAux pat (parseRepl r.data)
                      (oldName.data.length - i) r2
                else reSubAux pat (parseRepl r.data) (oldName.data.length - i) rest)) := by
  obtain ⟨la⟩ := oldName
  refine ⟨?_, ?_, ?_⟩
  · simp [RenameObject, CRenameObjectParams.ofDict, hregex, hrepl, hpat]
  · intro hno
    show String.mk (reSubAux pat (parseRepl r.data) (la.length + 1) la) = String.mk la
    rw [reSubAux_nomatch pat (parseRepl r.data) (la.length + 1) la hno]
  · intro i rest caps hno hle hm
    show reSubAux pat (parseRepl r.data) (la.length + 1) la = _
    have hle2 : i ≤ la.length := hle
    have := reSubAux_leftmost pat (parseRepl r.data) i (la.length + 1) la rest caps
      hno hle2 (by omega) hm
    have hfu : la.length + 1 - i - 1 = la.length - i := by omega
    rw [hfu] at this
    exact this

/-- Witness for C4 at concrete inputs: the pattern `(u)b` first matches
"Cube" at position 1 and the template `X\1Y` with its capture group yields
"CXuYe". -/
theorem renameObject_regex_spec_witness :
    (RenameObject "Cube"
        ⟨some "X\\1Y", some true, some (Regex.seq (Regex.group 1 (Regex.char 'u')) (Regex.char 'b'))⟩
      = .ok (reSub (Regex.seq (Regex.group 1 (Regex.char 'u')) (Regex.char 'b')) "X\\1Y" "Cube"))
    ∧ ((reSub (Regex.seq (Regex.group 1 (Regex.char 'u')) (Regex.char 'b')) "X\\1Y" "Cube").data
      = "Cube".data.take 1
        ++ expandRepl (parseRepl "X\\1Y".data)
            (("Cube".data.drop 1).take (("Cube".data.drop 1).length - ['e'].length))
            [(1, ['u'])]
        ++ (if ['e'].length = ("Cube".data.drop 1).length then
              match "Cube".data.drop 1 with
              | [] => []
              | c :: r2 => c :: reSubAux (Regex.seq (Regex.group 1 (Regex.char 'u')) (Regex.char 'b'))
                  (parseRepl "X\\1Y".data) ("Cube".data.length - 1) r2
            else reSubAux (Regex.seq (Regex.group 1 (Regex.char 'u')) (Regex.char 'b'))
                (parseRepl "X\\1Y".data) ("Cube".data.length - 1) ['e']))
    ∧ reSub (Regex.seq (Regex.group 1 (Regex.char 'u')) (Regex.char 'b')) "X\\1Y" "Cube"
        = "CXuYe" :=
  ⟨(renameObject_regex_spec
      ⟨some "X\\1Y", some true, some (Regex.seq (Regex.group 1 (Regex.char 'u')) (Regex.char 'b'))⟩
      "Cube" (Regex.seq (Regex.group 1 (Regex.char 'u')) (Regex.char 'b')) "X\\1Y"
      rfl rfl rfl).1,
   (renameObject_regex_spec
      ⟨some "X\\1Y", some true, some (Regex.seq (Regex.group 1 (Regex.char 'u')) (Regex.char 'b'))⟩
      "Cube" (Regex.seq (Regex.group 1 (Regex.char 'u')) (Regex.char 'b')) "X\\1Y"
      rfl rfl rfl).2.2 1 ['e'] [(1, ['u'])]
      (fun j hj => by
        have hj0 : j = 0 := by omega
        subst hj0
        rfl)
      (by decide) rfl,
   rfl⟩

/-- C10: the `sSearch` error branch of `RenameObject` is unreachable: the
declared default `""` makes the resolved `sSearch` never `None`; with
`bUseRegEx` true and `sSearch` absent, the function performs substitution
with the empty pattern instead. -/
theorem renameObject_sSearch_default (d : CRenameDict) (oldName : String) :
    (CRenameObjectParams.ofDict d).sSearch ≠ Option.none
    ∧ RenameObject oldName d
        ≠ .error "Element \x27sSearch\x27 not given in object rename modifier"
    ∧ (∀ r, d.bUseRegEx.getD false = true → d.sSearch = Option.none →
        d.sReplace = some r →
        RenameObject oldName d = .ok (reSub Regex.emp r oldName)) := by
  refine ⟨by simp [CRenameObjectParams.ofDict], ?_, ?_⟩
  · cases hrepl : d.sReplace with
    | none => simp [RenameObject, CRenameObjectParams.ofDict, hrepl]
    | some r =>
        cases hregex : d.bUseRegEx.getD false with
        | false => simp [RenameObject, CRenameObjectParams.ofDict, hrepl, hregex]
        | true => simp [RenameObject, CRenameObjectParams.ofDict, hrepl, hregex]
  · intro r hregex hpat hrepl
    simp [RenameObject, CRenameObjectParams.ofDict, hregex, hpat, hrepl]

/-- Witness for C10 at a concrete input: with `bUseRegEx` true and `sSearch`
absent, the name becomes the empty-pattern substitution (which inserts the
replacement at every position). -/
theorem renameObject_sSearch_default_witness :
    (CRenameObjectParams.ofDict ⟨some "-", some true, Option.none⟩).sSearch ≠ Option.none
    ∧ RenameObject "ab" ⟨some "-", some true, Option.none⟩
        ≠ .error "Element \x27sSearch\x27 not given in object rename modifier"
    ∧ RenameObject "ab" ⟨some "-", some true, Option.none⟩
        = .ok (reSub Regex.emp "-" "ab")
    ∧ reSub Regex.emp "-" "ab" = "-a-b-" :=
  ⟨(renameObject_sSearch_default ⟨some "-", some true, Option.none⟩ "ab").1,
   (renameObject_sSearch_default ⟨some "-", some true, Option.none⟩ "ab").2.1,
   (renameObject_sSearch_default ⟨some "-", some true, Option.none⟩ "ab").2.2 "-"
     rfl rfl rfl,
   rfl⟩

/-! ## `ParentToObject` (C5)

The scene is a list of named objects.  The parenting calls the function
makes are recorded as events; `applyParentEvent` gives the events their
scene semantics.  `anyobj.ParentObject` and `camops.ParentAnyCam` live in
the external anyblend/anycam libraries. -/

/-- A scene object as seen by `ParentToObject`: its name, its `type`
(`"CAMERA"` or another type string), its parent link, a stand-in world
transform `worldLoc` and local offset `localLoc`. -/
structure SceneObj where
  name : String
  otype : String
  parent : Option String
  worldLoc : Int
  localLoc : Int
deriving Repr, DecidableEq

/-- `bpy.data.objects.get(name)`: first object of the scene with the name. -/
def sceneGet (scn : List SceneObj) (n : String) : Option SceneObj :=
  scn.find? (fun o => o.name = n)

/-- The host calls `ParentToObject` makes, in order. -/
inductive ParentEvent where
  | parentAnyCam : String → String → ParentEvent
  | parentObject : String → String → Bool → ParentEvent
  | vlUpdate : ParentEvent
deriving Repr, DecidableEq

/-- `ParentToObject(_objX, _dicMod)`: camera objects are routed to
`camops.ParentAnyCam`; otherwise the named parent is looked up and, when
missing, an error is raised unless `bSkipNonexistingParent`; when present,
`anyobj.ParentObject` is called with `bKeepTransform`.  `anyvl.Update()`
always runs last.  `bKeepTransform` and `bSkipNonexistingParent` carry the
declared default `False`. -/
def ParentToObject (scn : List SceneObj) (objX : SceneObj) (sParentObject : String)
    (bKeepTransform bSkipNonexistingParent : Option Bool) :
    Except String (List ParentEvent) :=
  let keep := bKeepTransform.getD false
  let skip := bSkipNonexistingParent.getD false
  if objX.otype = "CAMERA" then
    .ok [.parentAnyCam objX.name sParentObject, .vlUpdate]
  else
    match sceneGet scn sParentObject with
    | Option.none =>
        if skip = false then
          .error ("Object " ++ sq ++ sParentObject ++ sq ++ " not found for parenting")
        else .ok [.vlUpdate]
    | some _ => .ok [.parentObject sParentObject objX.name keep, .vlUpdate]

/-- Modelled from the spec: the scene semantics of the recorded host calls.
`anyblend`'s `ParentObject(objParent, objX, bKeepTransform)` sets the parent
link of `objX`; with `bKeepTransform` the current absolute position is kept,
otherwise the local offset is re-evaluated under the new parent.
`ParentAnyCam` manipulates the external camera rig and `Update()` refreshes
the view layer: neither changes the modelled object fields. -/
def applyParentEvent (scn : List SceneObj) : ParentEvent → List SceneObj
  | .parentAnyCam _ _ => scn
  | .vlUpdate => scn
  | .parentObject p x keep =>
      scn.map (fun o =>
        if o.name = x then
          if keep then { o with parent := some p }
          else
            match sceneGet scn p with
            | some po => { o with parent := some p, worldLoc := po.worldLoc + o.localLoc }
            | Option.none => { o with parent := some p }
        else o)

/-- Folding the scene semantics over the recorded calls. -/
def applyParentEvents (scn : List SceneObj) (evs : List ParentEvent) : List SceneObj :=
  evs.foldl applyParentEvent scn

/-- Lookup in a scene mapped by a name-preserving function. -/
theorem sceneGet_map (f : SceneObj → SceneObj) (hf : ∀ o, (f o).name = o.name)
    (n : String) :
    ∀ (scn : List SceneObj), sceneGet (scn.map f) n = (sceneGet scn n).map f := by
  intro scn
  induction scn with
  | nil => rfl
  | cons o rest ih =>
      unfold sceneGet at ih ⊢
      simp only [List.map_cons, List.find?_cons, hf]
      by_cases ho : o.name = n
      · simp [ho]
      · simp [ho, ih]

/-- C5: for a non-camera object, a missing named parent raises an error
naming it when `bSkipNonexistingParent` is false and performs no re-parenting
(only the view-layer refresh) when it is true; an existing parent leads to
the parenting call, and with `bKeepTransform` the object keeps its world
transform (and every other field) exactly, only its parent link changing;
a camera object is routed to the distinct camera parenting routine. -/
theorem parentToObject_spec (scn : List SceneObj) (objX : SceneObj) (p : String)
    (keep skip : Option Bool) :
    (objX.otype = "CAMERA" →
      ParentToObject scn objX p keep skip
        = .ok [.parentAnyCam objX.name p, .vlUpdate])
    ∧ (objX.otype ≠ "CAMERA" → sceneGet scn p = Option.none → skip.getD false = false →
      ParentToObject scn objX p keep skip
        = .error ("Object " ++ sq ++ p ++ sq ++ " not found for parenting"))
    ∧ (objX.otype ≠ "CAMERA" → sceneGet scn p = Option.none → skip.getD false = true →
      ParentToObject scn objX p keep skip = .ok [.vlUpdate]
      ∧ applyParentEvents scn [ParentEvent.vlUpdate] = scn)
    ∧ (∀ po o, objX.otype ≠ "CAMERA" → sceneGet scn p = some po →
      sceneGet scn objX.name = some o →
      ParentToObject scn objX p keep skip
        = .ok [.parentObject p objX.name (keep.getD false), .vlUpdate]
      ∧ (keep.getD false = true →
          sceneGet (applyParentEvents scn
              [ParentEvent.parentObject p objX.name true, ParentEvent.vlUpdate]) objX.name
            = some { o with parent := some p })) := by
  refine ⟨?_, ?_, ?_, ?_⟩
  · intro hc
    simp [ParentToObject, hc]
  · intro hc hget hskip
    simp [ParentToObject, hc, hget, hskip]
  · intro hc hget hskip
    exact ⟨by simp [ParentToObject, hc, hget, hskip], rfl⟩
  · intro po o hc hget hobj
    refine ⟨by simp [ParentToObject, hc, hget], fun hkeep => ?_⟩
    show sceneGet (applyParentEvent scn (ParentEvent.parentObject p objX.name true)) objX.name
      = some { o with parent := some p }
    unfold applyParentEvent
    rw [sceneGet_map _ (fun o2 => by
        by_cases h2 : o2.name = objX.name <;> simp [h2]) objX.name, hobj]
    have : o.name = objX.name := by
      have := List.find?_some hobj
      simpa using this
    simp [this]

/-- Scene used by the C5 witness. -/
def demoScene : List SceneObj :=
  [⟨"Cam", "CAMERA", Option.none, 0, 0⟩,
   ⟨"Box", "MESH", Option.none, 5, 2⟩,
   ⟨"Root", "EMPTY", Option.none, 10, 0⟩]

/-- Witness for C5 at concrete inputs: the camera route, the error for a
missing parent, the silent skip, and transform-preserving parenting. -/
theorem parentToObject_spec_witness :
    (ParentToObject demoScene ⟨"Cam", "CAMERA", Option.none, 0, 0⟩ "Root"
        Option.none Option.none
      = .ok [.parentAnyCam "Cam" "Root", .vlUpdate])
    ∧ (ParentToObject demoScene ⟨"Box", "MESH", Option.none, 5, 2⟩ "Ghost"
        Option.none Option.none
      = .error ("Object " ++ sq ++ "Ghost" ++ sq ++ " not found for parenting"))
    ∧ (ParentToObject demoScene ⟨"Box", "MESH", Option.none, 5, 2⟩ "Ghost"
        Option.none (some true) = .ok [.vlUpdate])
    ∧ (ParentToObject demoScene ⟨"Box", "MESH", Option.none, 5, 2⟩ "Root"
        (some true) Option.none
      = .ok [.parentObject "Root" "Box" true, .vlUpdate])
    ∧ (sceneGet (applyParentEvents demoScene
          [ParentEvent.parentObject "Root" "Box" true, ParentEvent.vlUpdate]) "Box"
      = some ⟨"Box", "MESH", some "Root", 5, 2⟩) :=
  ⟨(parentToObject_spec demoScene ⟨"Cam", "CAMERA", Option.none, 0, 0⟩ "Root"
      Option.none Option.none).1 rfl,
   (parentToObject_spec demoScene ⟨"Box", "MESH", Option.none, 5, 2⟩ "Ghost"
      Option.none Option.none).2.1 (by decide) rfl rfl,
   ((parentToObject_spec demoScene ⟨"Box", "MESH", Option.none, 5, 2⟩ "Ghost"
      Option.none (some true)).2.2.1 (by decide) rfl rfl).1,
   ((parentToObject_spec demoScene ⟨"Box", "MESH", Option.none, 5, 2⟩ "Root"
      (some true) Option.none).2.2.2 ⟨"Root", "EMPTY", Option.none, 10, 0⟩
      ⟨"Box", "MESH", Option.none, 5, 2⟩ (by decide) rfl rfl).1,
   ((parentToObject_spec demoScene ⟨"Box", "MESH", Option.none, 5, 2⟩ "Root"
      (some true) Option.none).2.2.2 ⟨"Root", "EMPTY", Option.none, 10, 0⟩
      ⟨"Box", "MESH", Option.none, 5, 2⟩ (by decide) rfl rfl).2 rfl⟩

/-! ## `ExportObjectObj` (C6)

Paths are modelled structurally: an absolute flag and a list of components.
`anybase.path.MakeNormPath` (external) normalizes a path string; its result
is represented directly by an `MPath`, so the configuration's `sFilePath`
is an `MPath`.  The file system is the list of existing directories. -/

/-- A normalized path: absolute flag and components. -/
structure MPath where
  isAbs : Bool
  comps : List String
deriving Repr, DecidableEq

/-- `pathlib` `path.parent`: drop the last component. -/
def MPath.parent (p : MPath) : MPath :=
  { p with comps := p.comps.dropLast }

/-- `pathlib` `/` join of a base directory and a relative path. -/
def MPath.join (b p : MPath) : MPath :=
  { isAbs := b.isAbs, comps := b.comps ++ p.comps }

/-- `pathlib` `as_posix`. -/
def MPath.asPosix (p : MPath) : String :=
  (if p.isAbs then "/" else "") ++ String.intercalate "/" p.comps

/-- Does a directory exist in the file system? -/
def dirExists (fs : List MPath) (p : MPath) : Bool :=
  fs.any (fun q => q = p)

/-- `p.mkdir(parents=True, exist_ok=True)`: the directory and all its
ancestors come to exist. -/
def mkdirParents (fs : List MPath) (p : MPath) : List MPath :=
  (List.range (p.comps.length + 1)).map (fun i => MPath.mk p.isAbs (p.comps.take i)) ++ fs

/-- `ExportObjectObj(_objX, _dicMod)`: resolve `sFilePath` against the
directory of the active scene file (`bpy.path.abspath("//")`, here
`blendDir`) when it is not absolute; create the destination directory if it
does not exist and `bCreatePath` (declared default `False`) is set; raise
when it still does not exist; else export (`objops.ExportFromScene_Obj`,
recorded as the returned path/object pair).  The returned file system
reflects a possible directory creation. -/
def ExportObjectObj (fs : List MPath) (blendDir : MPath) (objName : String)
    (sFilePath : MPath) (bCreatePath : Option Bool) :
    List MPath × Except String (MPath × String) :=
  let pathFile0 := sFilePath
  let pathFile :=
    if pathFile0.isAbs = false then blendDir.join pathFile0 else pathFile0
  let fs1 :=
    if dirExists fs pathFile.parent = false ∧ bCreatePath.getD false = true then
      mkdirParents fs pathFile.parent
    else fs
  if dirExists fs1 pathFile.parent = false then
    (fs1, .error ("Export path for object " ++ sq ++ " " ++ objName ++ sq
      ++ " does not exist: " ++ pathFile.parent.asPosix))
  else
    (fs1, .ok (pathFile, objName))

/-- A just-created directory exists. -/
theorem dirExists_mkdirParents (fs : List MPath) (p : MPath) :
    dirExists (mkdirParents fs p) p = true := by
  unfold dirExists mkdirParents
  rw [List.any_eq_true]
  refine ⟨p, ?_, by simp⟩
  rw [List.mem_append]
  left
  rw [List.mem_map]
  refine ⟨p.comps.length, by simp, ?_⟩
  simp

/-- C6: a non-absolute `sFilePath` is resolved against the active scene
file's directory (an absolute one is used as is); when the destination
directory does not exist, it is created exactly when `bCreatePath` is true,
after which the export proceeds on the resolved path; without `bCreatePath`
an error naming the missing directory is raised and no export is performed
(and nothing is created); when the directory exists, nothing is created and
the export proceeds. -/
theorem exportObjectObj_spec (fs : List MPath) (blendDir : MPath) (objName : String)
    (sFilePath : MPath) (bCreatePath : Option Bool) :
    (∀ pathFile,
      pathFile = (if sFilePath.isAbs = false then blendDir.join sFilePath else sFilePath) →
      ((dirExists fs pathFile.parent = false → bCreatePath.getD false = true →
          ExportObjectObj fs blendDir objName sFilePath bCreatePath
            = (mkdirParents fs pathFile.parent, .ok (pathFile, objName)))
       ∧ (dirExists fs pathFile.parent = false → bCreatePath.getD false = false →
          ExportObjectObj fs blendDir objName sFilePath bCreatePath
            = (fs, .error ("Export path for object " ++ sq ++ " " ++ objName ++ sq
                ++ " does not exist: " ++ pathFile.parent.asPosix)))
       ∧ (dirExists fs pathFile.parent = true →
          ExportObjectObj fs blendDir objName sFilePath bCreatePath
            = (fs, .ok (pathFile, objName))))) := by
  intro pathFile hpf
  subst hpf
  refine ⟨?_, ?_, ?_⟩
  · intro hdir hcreate
    simp [ExportObjectObj, hdir, hcreate, dirExists_mkdirParents]
  · intro hdir hcreate
    simp [ExportObjectObj, hdir, hcreate]
  · intro hdir
    simp [ExportObjectObj, hdir]

/-- Witness for C6 at concrete inputs: a relative path is resolved under the
scene directory and created on demand; without creation the export errors;
an existing directory exports directly. -/
theorem exportObjectObj_spec_witness :
    (ExportObjectObj [⟨true, ["scenes"]⟩] ⟨true, ["scenes"]⟩ "Box"
        ⟨false, ["out", "mesh.obj"]⟩ (some true)
      = (mkdirParents [⟨true, ["scenes"]⟩] (MPath.parent ⟨true, ["scenes", "out", "mesh.obj"]⟩),
         .ok (⟨true, ["scenes", "out", "mesh.obj"]⟩, "Box")))
    ∧ (ExportObjectObj [⟨true, ["scenes"]⟩] ⟨true, ["scenes"]⟩ "Box"
        ⟨false, ["out", "mesh.obj"]⟩ Option.none
      = ([⟨true, ["scenes"]⟩],
         .error ("Export path for object " ++ sq ++ " " ++ "Box" ++ sq
           ++ " does not exist: "
           ++ MPath.asPosix (MPath.parent ⟨true, ["scenes", "out", "mesh.obj"]⟩))))
    ∧ (ExportObjectObj [⟨true, ["scenes"]⟩] ⟨true, ["scenes"]⟩ "Box"
        ⟨true, ["scenes", "mesh.obj"]⟩ Option.none
      = ([⟨true, ["scenes"]⟩], .ok (⟨true, ["scenes", "mesh.obj"]⟩, "Box"))) :=
  ⟨(exportObjectObj_spec [⟨true, ["scenes"]⟩] ⟨true, ["scenes"]⟩ "Box"
      ⟨false, ["out", "mesh.obj"]⟩ (some true)
      ⟨true, ["scenes", "out", "mesh.obj"]⟩ rfl).1 (by decide) rfl,
   (exportObjectObj_spec [⟨true, ["scenes"]⟩] ⟨true, ["scenes"]⟩ "Box"
      ⟨false, ["out", "mesh.obj"]⟩ Option.none
      ⟨true, ["scenes", "out", "mesh.obj"]⟩ rfl).2.1 (by decide) rfl,
   (exportObjectObj_spec [⟨true, ["scenes"]⟩] ⟨true, ["scenes"]⟩ "Box"
      ⟨true, ["scenes", "mesh.obj"]⟩ Option.none
      ⟨true, ["scenes", "mesh.obj"]⟩ rfl).2.2 (by decide)⟩

/-! ## `EnableIfBoundBox` and `LogObject` (C9)

Both functions bind `mp` to the parameter *class* itself
(`mp = CEnableIfBoundBoxParams`, `mp = CLogObjectParams`) instead of an
instance constructed from `_dicMod`.  Every `mp.<field>` read below is
therefore the class attribute — the field-specification value the
`@paramclass` decorator stores on the class (`PyVal.paramField`) — and is
independent of the configuration dictionary.  What the host does when handed
such a value (object lookup by a non-string key, bounding-box construction,
membership tests, iteration) is not derivable from this repository; those
steps are oracle fields of a host record, and the functions are shown to
produce identical results for any two configuration dictionaries under any
fixed host. -/

/-- The configuration dictionary of `EnableIfBoundBox` (fields present or
absent). -/
structure CEnableIfBoundBoxDict where
  sDTI : Option String
  xValue : Option Bool
  sTarget : Option String
  bCompoundTarget : Option Bool
  fBorder : Option Int
  sRelation : Option String

/-- Modelled from the spec: `anybase.config.AssertConfigType` passes exactly
when the dictionary's `sDTI` names the expected configuration type. -/
def assertConfigTypeBB (d : CEnableIfBoundBoxDict) : Bool :=
  d.sDTI = some "/catharsys/blender/modify/object/enable-if/bound-box:1.0"

/-- Host behaviour on the class-attribute values `EnableIfBoundBox` passes
it: `bpy.data.objects.get(CEnableIfBoundBoxParams.sTarget)` and
`CBoundingBox(...)` with the class attributes as arguments. -/
structure BBoxHost where
  getObjByFieldSpec : Except String (Option Nat)
  mkBoundBox : Nat → Except String Unit

/-- `EnableIfBoundBox(_objX, _dicMod)`.  After the configuration-type
assertion, the body reads only class attributes: the target lookup and the
bounding-box construction are host-determined, and the `match` on
`mp.sRelation` matches none of the string cases (a field-specification value
equals no string), so `bEnable` stays `None` and the unsupported-relation
error is raised. -/
def EnableIfBoundBox (host : BBoxHost) (d : CEnableIfBoundBoxDict) : Except String Unit :=
  if assertConfigTypeBB d = false then
    .error "Unexpected config type in EnableIfBoundBox"
  else
    match host.getObjByFieldSpec with
    | .error e => .error e
    | .ok Option.none =>
        .error ("Target object " ++ sq ++ pyStr (PyVal.paramField "sTarget") ++ sq
          ++ " not found")
    | .ok (some objTarget) =>
        match host.mkBoundBox objTarget with
        | .error e => .error e
        | .ok _ =>
            .error ("Unsupported relation " ++ sq ++ pyStr (PyVal.paramField "sRelation")
              ++ sq ++ ". Expect one of [" ++ sq ++ "INSIDE" ++ sq ++ ", " ++ sq
              ++ "OUTSIDE" ++ sq ++ ", " ++ sq ++ "INTERSECT" ++ sq ++ "]")

/-- The configuration dictionary of `LogObject`. -/
structure CLogObjectDict where
  sDTI : Option String
  lAttributes : Option (List String)
  sLogFile : Option String

/-- Host behaviour on the class-attribute values `LogObject` handles:
whether the class attributes are Python `None`, iteration over
`CLogObjectParams.lAttributes`, the membership/attribute protocol of
`_objX` on non-string keys, `json.loads`, and
`open(CLogObjectParams.sLogFile, "w")`. -/
structure LogHost where
  lAttrClassIsNone : Bool
  iterLAttrClass : Except String (List PyVal)
  memIn : PyVal → Except String Bool
  hasAttrOf : PyVal → Bool
  getItemOf : PyVal → PyVal
  getAttrOf : PyVal → PyVal
  jsonLoads : PyVal → Option PyVal
  sLogFileClassIsNone : Bool
  openWrite : Except String Unit

/-- The `for sAttr in mp.lAttributes:` loop of `LogObject`: custom-property
membership first, then `hasattr`, else a `KeyError`; the read value is
json-parsed when possible.  The collected entries are kept in iteration
order. -/
def logObjectLoop (host : LogHost) (objXName : String) :
    List PyVal → Except String (List (PyVal × PyVal))
  | [] => .ok []
  | sAttr :: rest =>
      match host.memIn sAttr with
      | .error e => .error e
      | .ok true =>
          match logObjectLoop host objXName rest with
          | .error e => .error e
          | .ok tail =>
              .ok ((sAttr, (host.jsonLoads (host.getItemOf sAttr)).getD
                (host.getItemOf sAttr)) :: tail)
      | .ok false =>
          if host.hasAttrOf sAttr then
            match logObjectLoop host objXName rest with
            | .error e => .error e
            | .ok tail =>
                .ok ((sAttr, (host.jsonLoads (host.getAttrOf sAttr)).getD
                  (host.getAttrOf sAttr)) :: tail)
          else
            .error ("Attribute " ++ pyStr sAttr ++ " not in " ++ objXName)

/-- The observable outcome of `LogObject`: the logged entries went to a file
or to the console. -/
inductive LogOutcome where
  | wroteFile : List (PyVal × PyVal) → LogOutcome
  | printed : List (PyVal × PyVal) → LogOutcome

/-- `LogObject(_objX, _dicMod)`.  `mp` is the class itself; `_dicMod` is
never read (there is no configuration-type assertion in this function). -/
def LogObject (host : LogHost) (objXName : String) (_dicMod : CLogObjectDict) :
    Except String LogOutcome :=
  if host.lAttrClassIsNone then
    .error "List of object attribute names not given"
  else
    match host.iterLAttrClass with
    | .error e => .error e
    | .ok items =>
        match logObjectLoop host objXName items with
        | .error e => .error e
        | .ok dicJson =>
            if host.sLogFileClassIsNone = false then
              match host.openWrite with
              | .error e => .error e
              | .ok _ => .ok (.wroteFile dicJson)
            else .ok (.printed dicJson)

/-- C9: `EnableIfBoundBox` and `LogObject` bind `mp` to the parameter class
itself, so under any fixed host, any two configuration dictionaries that
pass the configuration-type assertion (any two at all, for `LogObject`,
which asserts nothing) produce identical results: the behaviour does not
depend on the `sTarget`, `bCompoundTarget`, `fBorder`, `sRelation`,
`lAttributes` or `sLogFile` values supplied in the dictionary. -/
theorem paramclass_misuse_dict_independent (hostBB : BBoxHost) (hostLog : LogHost)
    (objXName : String) (d1 d2 : CEnableIfBoundBoxDict) (e1 e2 : CLogObjectDict) :
    (assertConfigTypeBB d1 = true → assertConfigTypeBB d2 = true →
      EnableIfBoundBox hostBB d1 = EnableIfBoundBox hostBB d2)
    ∧ LogObject hostLog objXName e1 = LogObject hostLog objXName e2 := by
  constructor
  · intro h1 h2
    simp [EnableIfBoundBox, h1, h2]
  · rfl

/-- Witness for C9 at concrete inputs: two dictionaries with different
`sTarget`/`sRelation` (resp. `lAttributes`/`sLogFile`) values give identical
results. -/
theorem paramclass_misuse_dict_independent_witness :
    EnableIfBoundBox ⟨.ok Option.none, fun _ => .ok ()⟩
        ⟨some "/catharsys/blender/modify/object/enable-if/bound-box:1.0",
         some true, some "A", Option.none, Option.none, some "INSIDE"⟩
      = EnableIfBoundBox ⟨.ok Option.none, fun _ => .ok ()⟩
        ⟨some "/catharsys/blender/modify/object/enable-if/bound-box:1.0",
         some false, some "B", some true, some 2, some "OUTSIDE"⟩ :=
  (paramclass_misuse_dict_independent ⟨.ok Option.none, fun _ => .ok ()⟩
    ⟨false, .ok [], fun _ => .ok true, fun _ => false, id, id, fun _ => Option.none,
     false, .ok ()⟩ "Cube"
    ⟨some "/catharsys/blender/modify/object/enable-if/bound-box:1.0",
     some true, some "A", Option.none, Option.none, some "INSIDE"⟩
    ⟨some "/catharsys/blender/modify/object/enable-if/bound-box:1.0",
     some false, some "B", some true, some 2, some "OUTSIDE"⟩
    ⟨Option.none, Option.none, Option.none⟩
    ⟨Option.none, some ["name"], some "log.json"⟩).1 rfl rfl

end ObjectUtil
